import Mathlib

/-
Verification of the remoteify library (Rust) against its natural-language
specification.  The Rust code is shallowly embedded: Rust `String`s are
embedded as `List Char`, byte buffers as `List Nat`, `HashMap`/`DashMap`
contents as association lists, and fallible operations as `Option`/`Except`.
Every definition is translated from the repository's source; definitions
whose doc comment says otherwise model either the spec's words (for
refinement comparisons) or a small, named third-party dependency.
-/

/-- Rust strings are embedded as lists of characters; this converts a Lean
string literal into that representation. -/
def str (s : String) : List Char := s.toList

/-- Embedding of Rust `str::trim_end`: removes trailing whitespace
characters (modelled with `Char.isWhitespace`). -/
def rtrim (s : List Char) : List Char :=
  (s.reverse.dropWhile (fun c => c.isWhitespace)).reverse

/-- Embedding of Rust `Vec::join` for string vectors (`sections.join(" && ")`
in `derive_shell_command`). -/
def rustJoin (sep : List Char) : List (List Char) → List Char
  | [] => []
  | [x] => x
  | x :: xs => x ++ sep ++ rustJoin sep xs

/-- Embedding of Rust `str::parse::<u32>()`: optional leading `+`, then one
or more decimal digits, value below `2^32`. -/
def parseU32 (s : List Char) : Option Nat :=
  let t := match s with
    | '+' :: rest => rest
    | _ => s
  if t ≠ [] ∧ t.all Char.isDigit then
    let v := t.foldl (fun acc c => acc * 10 + (c.toNat - 48)) 0
    if v < 2 ^ 32 then some v else none
  else none

/- ### Permissions (src/src/filesystem.rs) -/

/-- Embedding of the bitflags-generated `LinuxPermissions` value
(src/src/filesystem.rs:42-59): a raw bit pattern.  The twelve defined flags
are `0o4000, 0o2000, 0o1000, 0o400 .. 0o1`, i.e. exactly the low twelve
bits; their union (`LinuxPermissions::all()`) is `0o7777`. -/
structure LinuxPermissions where
  bits : Nat
deriving DecidableEq, Repr

/-- Union of the twelve defined permission bits, `LinuxPermissions::all().bits()`. -/
def permissionsAllBits : Nat := 0o7777

/-- Embedding of the bitflags-generated `LinuxPermissions::from_bits`:
succeeds exactly when truncating to the defined flags changes nothing
(`bits & Self::all().bits() == bits`). -/
def from_bits (m : Nat) : Option LinuxPermissions :=
  if m &&& permissionsAllBits = m then some ⟨m⟩ else none

/-- Embedding of the bitflags-generated `LinuxPermissions::from_bits_retain`:
keeps every bit of the input, including bits not corresponding to any
defined flag. -/
def from_bits_retain (m : Nat) : LinuxPermissions := ⟨m⟩

/-- Error type of permission construction (src/src/filesystem.rs:61-64). -/
inductive LinuxPermissionsError where
  | CouldNotExtractMode
  | UnknownBitSet
deriving DecidableEq, Repr

/-- Embedding of `TryFrom<Permissions> for LinuxPermissions`
(src/src/filesystem.rs:233-243).  `Permissions::mode()` already yields a
`u32`, so the `try_into` step cannot fail and the argument is the raw mode. -/
def linux_permissions_try_from (mode : Nat) : Except LinuxPermissionsError LinuxPermissions :=
  match from_bits mode with
  | some p => Except.ok p
  | none => Except.error LinuxPermissionsError.UnknownBitSet

/-- Embedding of `Into<Permissions> for LinuxPermissions`
(src/src/filesystem.rs:245-249): `Permissions::from_mode(self.bits())`
carries the bit pattern over verbatim, so the conversion is total. -/
def linux_permissions_into_mode (p : LinuxPermissions) : Nat := p.bits

/-- A permission value is well formed when it only uses the twelve defined
bits (spec: "a subset of the twelve defined bits"). -/
def PermWellFormed (p : LinuxPermissions) : Prop :=
  p.bits &&& permissionsAllBits = p.bits

instance (p : LinuxPermissions) : Decidable (PermWellFormed p) := by
  unfold PermWellFormed; infer_instance

/-- Helper: a natural number equals its truncation to the low twelve bits
exactly when it has no set bit at position 12 or above. -/
lemma and_mask_eq_self_iff (m : Nat) :
    m &&& permissionsAllBits = m ↔ ∀ i, m.testBit i = true → i < 12 := by
  have hmask : permissionsAllBits = 2 ^ 12 - 1 := by norm_num [permissionsAllBits]
  constructor
  · intro h i hi
    by_contra hlt
    have := congrArg (fun n => n.testBit i) h
    simp only [Nat.testBit_and, hmask, Nat.testBit_two_pow_sub_one] at this
    rw [hi] at this
    simp only [Bool.true_and] at this
    rw [decide_eq_true_eq] at this  -- decide (i < 12) = true
    · exact hlt this
  · intro h
    apply Nat.eq_of_testBit_eq
    intro i
    simp only [Nat.testBit_and, hmask, Nat.testBit_two_pow_sub_one]
    cases hbit : m.testBit i with
    | false => simp
    | true => simp [h i hbit]

/-- Claim C7: for every well-formed permission value `p`, converting to a
raw mode and back (`from_bits (into_mode p)`) yields exactly `p`;
construction from a raw mode fails precisely when some bit outside the
twelve defined bit positions is set; conversion to a raw mode is total by
construction. -/
theorem c7_permissions_roundtrip :
    (∀ p : LinuxPermissions, PermWellFormed p →
      from_bits (linux_permissions_into_mode p) = some p) ∧
    (∀ m : Nat, linux_permissions_try_from m = Except.error LinuxPermissionsError.UnknownBitSet
      ↔ ∃ i, m.testBit i = true ∧ ¬ i < 12) ∧
    (∀ p : LinuxPermissions, linux_permissions_into_mode p = p.bits) := by
  refine ⟨?_, ?_, fun _ => rfl⟩
  · intro p hp
    simp only [from_bits, linux_permissions_into_mode, PermWellFormed] at *
    rw [if_pos hp]
  · intro m
    constructor
    · intro h
      unfold linux_permissions_try_from from_bits at h
      by_cases hm : m &&& permissionsAllBits = m
      · rw [if_pos hm] at h; cases h
      · rw [and_mask_eq_self_iff] at hm
        push_neg at hm
        obtain ⟨i, hi, hlt⟩ := hm
        exact ⟨i, hi, by omega⟩
    · rintro ⟨i, hi, hlt⟩
      unfold linux_permissions_try_from from_bits
      have hm : ¬ (m &&& permissionsAllBits = m) := by
        rw [and_mask_eq_self_iff]
        push_neg
        exact ⟨i, hi, by omega⟩
      rw [if_neg hm]

/-- Witness for C7 at concrete inputs: `0o641` is well formed and round
trips; `0o100644` (a file-type bit set) is rejected. -/
theorem c7_permissions_roundtrip_witness :
    from_bits (linux_permissions_into_mode ⟨0o641⟩) = some ⟨0o641⟩ ∧
    linux_permissions_try_from 0o100644 = Except.error LinuxPermissionsError.UnknownBitSet := by
  constructor
  · exact c7_permissions_roundtrip.1 ⟨0o641⟩ (by decide)
  · exact (c7_permissions_roundtrip.2.1 0o100644).mpr ⟨15, by decide, by decide⟩

/- ### SFTP attribute conversion (src/src/impl_russh/filesystem.rs:275-293) -/

/-- Embedding of the permissions field of `Into<LinuxFileMetadata> for
FileAttributes` (src/src/impl_russh/filesystem.rs:280-283): the raw SFTP
file-mode, when present, is converted with `from_bits_retain`. -/
def file_attributes_permissions (raw : Option Nat) : Option LinuxPermissions :=
  match raw with
  | some bit => some (from_bits_retain bit)
  | none => none

/-- Counterexample to claim C8 as stated: the SFTP mode `0o100644`
(a regular file with rw-r--r--) is converted to a permissions value that
still contains the file-type bit `0o100000`, which is outside the twelve
defined bits, so the conversion does not truncate to the defined set. -/
theorem c8_counterexample :
    file_attributes_permissions (some 0o100644) = some (from_bits_retain 0o100644) ∧
    ¬ ((from_bits_retain 0o100644).bits &&& permissionsAllBits =
        (from_bits_retain 0o100644).bits) := by
  exact ⟨rfl, by decide⟩

/-- Claim C8 (amended): the SFTP-to-metadata conversion performs no
normalization at all — `from_bits_retain` preserves the server-delivered
mode verbatim, so every bit of the raw mode, including bits outside the
twelve defined permission bits, survives in the resulting value. -/
theorem c8_from_bits_retain_preserves_all_bits :
    ∀ m : Nat, file_attributes_permissions (some m) = some ⟨m⟩ ∧
      (from_bits_retain m).bits = m := by
  intro m
  exact ⟨rfl, rfl⟩

/- ### Shelled-out filesystem helpers (src/src/impl_russh/filesystem.rs) -/

/-- Messages observed on the dedicated filesystem channel while waiting for
a shelled-out helper command to finish (russh `ChannelMsg`, as matched in
`run_fs_command`). -/
inductive FsChannelMsg where
  | exitStatus (code : Nat)
  | otherMsg
deriving DecidableEq, Repr

/-- Outcome of the channel `exec` request issued by `run_fs_command`:
either a transport-level error, or the request goes through and the channel
then delivers a stream of messages until close. -/
inductive FsExecOutcome where
  | transportError
  | ran (msgs : List FsChannelMsg)
deriving DecidableEq, Repr

/-- Errors surfaced by the embedded filesystem operations (`io::Error` is
collapsed to a single constructor). -/
inductive FsIoError where
  | ioError
deriving DecidableEq, Repr

/-- Embedding of `run_fs_command` (src/src/impl_russh/filesystem.rs:244-269):
returns an error only when the `exec` request itself fails; otherwise it
pumps channel messages, remembering the last `ExitStatus`, and returns that
status wrapped in `Ok` — whatever its value. -/
def run_fs_command (outcome : FsExecOutcome) : Except FsIoError (Option Nat) :=
  match outcome with
  | FsExecOutcome.transportError => Except.error FsIoError.ioError
  | FsExecOutcome.ran msgs =>
      Except.ok (msgs.foldl
        (fun code msg =>
          match msg with
          | FsChannelMsg.exitStatus c => some c
          | FsChannelMsg.otherMsg => code)
        none)

/-- Embedding of `LinuxFilesystem::copy_file` for the library-SSH backend
(src/src/impl_russh/filesystem.rs:73-77): shells out `cp a b` through
`run_fs_command` and maps any `Ok` result to `Ok(None)`. -/
def copy_file (outcome : FsExecOutcome) : Except FsIoError (Option Nat) :=
  (run_fs_command outcome).map (fun _ => none)

/-- Embedding of `LinuxFilesystem::remove_dir_recursively` for the
library-SSH backend (src/src/impl_russh/filesystem.rs:208-214): shells out
`rm -r p` and discards the status. -/
def remove_dir_recursively (outcome : FsExecOutcome) : Except FsIoError Unit :=
  (run_fs_command outcome).map (fun _ => ())

/-- Counterexample to claim C9 as stated: when the remote `cp` helper exits
with status 1, `copy_file` still returns `Ok` (and likewise
`remove_dir_recursively` with a failing `rm -r`), not an error. -/
theorem c9_counterexample :
    copy_file (FsExecOutcome.ran [FsChannelMsg.exitStatus 1]) = Except.ok none ∧
    remove_dir_recursively (FsExecOutcome.ran [FsChannelMsg.exitStatus 1]) = Except.ok () := by
  exact ⟨rfl, rfl⟩

/-- Claim C9 (amended): the shelled-out operations fail exactly when the
channel `exec` request itself fails at the transport level; the helper
command's exit status is collected by `run_fs_command` but discarded by
`copy_file` and `remove_dir_recursively`, so any exit status — zero or
nonzero — yields `Ok`. -/
theorem c9_shellout_error_reporting :
    (∀ msgs, copy_file (FsExecOutcome.ran msgs) = Except.ok none) ∧
    (∀ msgs, remove_dir_recursively (FsExecOutcome.ran msgs) = Except.ok ()) ∧
    copy_file FsExecOutcome.transportError = Except.error FsIoError.ioError ∧
    remove_dir_recursively FsExecOutcome.transportError = Except.error FsIoError.ioError := by
  exact ⟨fun _ => rfl, fun _ => rfl, rfl, rfl⟩

/- ### Output capture fabric maps -/

/-- Key of the library-SSH output buffers (src/src/russh/executor.rs:28-32):
a channel id paired with an instance id. -/
structure InternalId where
  channel_id : Nat
  instance_id : Nat
deriving DecidableEq, Repr

/-- Key of the library-SSH extended-data buffers
(src/src/russh/executor.rs:38-43). -/
structure StdextKey where
  channel_id : Nat
  instance_id : Nat
  ext : Nat
deriving DecidableEq, Repr

/-- A keyed buffer map (the contents of a `DashMap` / locked `HashMap`),
embedded as an association list. -/
def BufMap (K : Type) : Type := List (K × List Nat)

/-- Embedding of a map lookup (`DashMap::get` / `HashMap::get`). -/
def bufGet {K : Type} [DecidableEq K] (m : BufMap K) (k : K) : Option (List Nat) :=
  (m.find? (fun e => decide (e.1 = k))).map (fun e => e.2)

/-- Embedding of a map removal (`DashMap::remove`). -/
def bufRemove {K : Type} [DecidableEq K] (m : BufMap K) (k : K) : BufMap K :=
  m.filter (fun e => decide (e.1 ≠ k))

lemma bufGet_bufRemove {K : Type} [DecidableEq K] (m : BufMap K) (k : K) :
    bufGet (bufRemove m k) k = none := by
  have hfind : (bufRemove m k).find? (fun e => decide (e.1 = k)) = none := by
    rw [List.find?_eq_none]
    intro x hx hd
    have h2 := (List.mem_filter.mp hx).2
    exact (of_decide_eq_true h2) (of_decide_eq_true hd)
  simp [bufGet, hfind]

/- ### Process-handle drop behavior (claim C5) -/

/-- Embedding of `Drop for RusshLinuxProcess`
(src/src/russh/executor.rs:94-99): removes the handle's stdout and stderr
buffer entries from the two global maps. -/
def russh_process_drop (stdoutBufs stderrBufs : BufMap InternalId) (id : InternalId) :
    BufMap InternalId × BufMap InternalId :=
  (bufRemove stdoutBufs id, bufRemove stderrBufs id)

/-- Embedding of dropping a `NativeLinuxProcess`
(src/src/native/executor.rs:25-31): the struct has no `Drop`
implementation, and its fields (`Child`, `ChildStdin`, flags, pid) do not
reference the global buffer maps, so dropping the handle leaves both maps
unchanged. -/
def native_process_drop (stdoutBufs stderrBufs : BufMap Nat) :
    BufMap Nat × BufMap Nat :=
  (stdoutBufs, stderrBufs)

/-- Counterexample to claim C5 as stated: for the native backend, after the
handle for PID 7 is dropped, the stdout buffer registered under key 7 is
still present — dropping a native process handle removes nothing. -/
theorem c5_counterexample :
    bufGet (native_process_drop [(7, [1, 2])] []).1 7 = some [1, 2] ∧
    bufGet (native_process_drop [(7, [1, 2])] []).1 7 ≠ none := by
  exact ⟨rfl, by decide⟩

/-- Claim C5 (amended): only the library-SSH process handle cleans up after
itself — its `Drop` removes both of its stdout and stderr buffer entries
from the capture maps — while the native process handle has no `Drop`
implementation and leaves the buffer maps untouched, so native buffers
outlive their owning handle. -/
theorem c5_drop_cleanup :
    (∀ (so se : BufMap InternalId) (id : InternalId),
      bufGet (russh_process_drop so se id).1 id = none ∧
      bufGet (russh_process_drop so se id).2 id = none) ∧
    (∀ (so se : BufMap Nat), native_process_drop so se = (so, se)) := by
  refine ⟨fun so se id => ⟨?_, ?_⟩, fun _ _ => rfl⟩
  · exact bufGet_bufRemove so id
  · exact bufGet_bufRemove se id

/- ### close_stdin (claim C6) -/

/-- Process error taxonomy (src/src/executor.rs:170-177 plus the
`KillUtilityFailed` variant of the russh revision); the payload-carrying
variants are collapsed to bare constructors. -/
inductive LinuxProcessError where
  | KillRequestUnsupported
  | ProcessIdNotFound
  | StdinNotPiped
  | ioError
  | OtherError
deriving DecidableEq, Repr

/-- Embedding of `NativeLinuxProcess::close_stdin`
(src/src/native/executor.rs:44-52): takes and drops the stdin handle when
present, otherwise fails with `StdinNotPiped`.  The state is the `stdin`
option (`σ` stands for the opaque `ChildStdin`); the call returns the
result together with the updated option. -/
def native_close_stdin {σ : Type} (stdin : Option σ) :
    Except LinuxProcessError Unit × Option σ :=
  match stdin with
  | some _ => (Except.ok (), none)
  | none => (Except.error LinuxProcessError.StdinNotPiped, none)

/-- Embedding of `OpensshLinuxProcess::close_stdin`
(src/src/impl_openssh/executor.rs:55-63): identical take-and-drop logic. -/
def openssh_close_stdin {σ : Type} (stdin : Option σ) :
    Except LinuxProcessError Unit × Option σ :=
  match stdin with
  | some _ => (Except.ok (), none)
  | none => (Except.error LinuxProcessError.StdinNotPiped, none)

/-- Embedding of `RusshLinuxProcess::close_stdin`
(src/src/russh/executor.rs:66-73): locks the channel and sends EOF,
mapping a transport failure to `Other`; the handle's `stdin` option is
never consulted.  `eofOk` tells whether the channel EOF send succeeded. -/
def russh_close_stdin {σ : Type} (eofOk : Bool) (stdin : Option σ) :
    Except LinuxProcessError Unit × Option σ :=
  match eofOk with
  | true => (Except.ok (), stdin)
  | false => (Except.error LinuxProcessError.OtherError, stdin)

/-- Counterexample to claim C6 as stated: a library-SSH process whose stdin
was never piped (`stdin = none`) still gets `Ok` from `close_stdin` (with a
healthy channel), not `StdinNotPiped`; a repeated close also returns `Ok`. -/
theorem c6_counterexample :
    (russh_close_stdin true (none : Option Unit)).1 = Except.ok () ∧
    (russh_close_stdin true (none : Option Unit)).1 ≠
      Except.error LinuxProcessError.StdinNotPiped := by
  exact ⟨rfl, fun h => Except.noConfusion h⟩

/-- Claim C6 (amended): for the native and proxy-SSH backends `close_stdin`
succeeds exactly when stdin is currently piped and open and fails with
`StdinNotPiped` otherwise — in particular a second close always fails —
while the library-SSH backend's `close_stdin` ignores the stdin state
entirely: it sends channel EOF and never returns `StdinNotPiped`. -/
theorem c6_close_stdin :
    (∀ (σ : Type) (h : σ), native_close_stdin (some h) = (Except.ok (), none)) ∧
    (∀ (σ : Type), native_close_stdin (none : Option σ) =
      (Except.error LinuxProcessError.StdinNotPiped, none)) ∧
    (∀ (σ : Type) (h : σ),
      (native_close_stdin (native_close_stdin (some h)).2).1 =
        Except.error LinuxProcessError.StdinNotPiped) ∧
    (∀ (σ : Type) (h : σ), openssh_close_stdin (some h) = (Except.ok (), none)) ∧
    (∀ (σ : Type), openssh_close_stdin (none : Option σ) =
      (Except.error LinuxProcessError.StdinNotPiped, none)) ∧
    (∀ (σ : Type) (h : σ),
      (openssh_close_stdin (openssh_close_stdin (some h)).2).1 =
        Except.error LinuxProcessError.StdinNotPiped) ∧
    (∀ (σ : Type) (eofOk : Bool) (stdin : Option σ),
      (russh_close_stdin eofOk stdin).1 ≠
        Except.error LinuxProcessError.StdinNotPiped) := by
  refine ⟨fun _ _ => rfl, fun _ => rfl, fun _ _ => rfl, fun _ _ => rfl, fun _ => rfl,
    fun _ _ => rfl, fun σ eofOk stdin => ?_⟩
  cases eofOk <;> simp [russh_close_stdin]

/- ### Output snapshots (claim C10) -/

/-- Shape of `LinuxProcessOutput` in the russh/openssh executor revision
(src/src/executor.rs:187-192): byte buffers plus extended-data streams. -/
structure LinuxProcessOutput where
  stdout : List Nat
  stderr : List Nat
  stdout_extended : List (Nat × List Nat)
deriving DecidableEq, Repr

/-- Embedding of `fetch_process_output` (src/src/russh/executor.rs:240-264):
reads the stdout and stderr buffers for the given key, substituting an empty
vector when no buffer is registered, and collects the extended-data buffers
whose key matches the channel and instance. -/
def fetch_process_output (stdoutBufs stderrBufs : BufMap InternalId)
    (stdextBufs : BufMap StdextKey) (id : InternalId) : LinuxProcessOutput :=
  { stdout :=
      match bufGet stdoutBufs id with
      | some buf => buf
      | none => []
    stderr :=
      match bufGet stderrBufs id with
      | some buf => buf
      | none => []
    stdout_extended :=
      (stdextBufs.filter (fun e =>
        decide (e.1.channel_id = id.channel_id ∧ e.1.instance_id = id.instance_id))).map
        (fun e => (e.1.ext, e.2)) }

/-- Embedding of `RusshLinuxProcess::get_current_output`
(src/src/russh/executor.rs:75-77): unconditionally wraps
`fetch_process_output` in `Ok`. -/
def russh_get_current_output (stdoutBufs stderrBufs : BufMap InternalId)
    (stdextBufs : BufMap StdextKey) (id : InternalId) :
    Except LinuxProcessError LinuxProcessOutput :=
  Except.ok (fetch_process_output stdoutBufs stderrBufs stdextBufs id)

/-- Embedding of `get_current_output_internal`
(src/src/openssh/executor.rs:151-168): starts from empty vectors and
overwrites each one only when a buffer is registered under the synthetic
id; extended data is always empty for this backend. -/
def get_current_output_internal (stdoutBufs stderrBufs : BufMap Nat)
    (syntheticId : Nat) : LinuxProcessOutput :=
  { stdout :=
      match bufGet stdoutBufs syntheticId with
      | some buf => buf
      | none => []
    stderr :=
      match bufGet stderrBufs syntheticId with
      | some buf => buf
      | none => []
    stdout_extended := [] }

/-- Embedding of `OpensshLinuxProcess::get_current_output`
(src/src/openssh/executor.rs:58-60): unconditionally wraps
`get_current_output_internal` in `Ok`. -/
def openssh_get_current_output (stdoutBufs stderrBufs : BufMap Nat)
    (syntheticId : Nat) : Except LinuxProcessError LinuxProcessOutput :=
  Except.ok (get_current_output_internal stdoutBufs stderrBufs syntheticId)

/-- Shape of `LinuxProcessPartialOutput` in the native executor revision:
optional stdout/stderr buffers plus (always empty) extended data. -/
structure LinuxProcessPartialOutput where
  stdout : Option (List Nat)
  stderr : Option (List Nat)
  stdout_extended : List (Nat × List Nat)
deriving DecidableEq, Repr

/-- Embedding of `NativeLinuxProcess::get_partial_output`
(src/src/native/executor.rs:54-76): fails with `ProcessIdNotFound` when the
child has no PID; otherwise reads each redirected stream's buffer, leaving
`None` when redirection was off or the buffer is unregistered. -/
def native_get_partial_output (pid : Option Nat) (redirect_stdout redirect_stderr : Bool)
    (stdoutBufs stderrBufs : BufMap Nat) :
    Except LinuxProcessError LinuxProcessPartialOutput :=
  match pid with
  | none => Except.error LinuxProcessError.ProcessIdNotFound
  | some p =>
      Except.ok
        { stdout := if redirect_stdout then bufGet stdoutBufs p else none
          stderr := if redirect_stderr then bufGet stderrBufs p else none
          stdout_extended := [] }

/-- Claim C10: the library-SSH and proxy-SSH output snapshots always return
`Ok` — an unregistered stream buffer yields an empty byte vector — while
the native backend's snapshot fails with `ProcessIdNotFound` whenever the
child has no PID. -/
theorem c10_snapshot_totality :
    (∀ (so se : BufMap InternalId) (sx : BufMap StdextKey) (id : InternalId),
      (russh_get_current_output so se sx id).isOk = true ∧
      (bufGet so id = none → (fetch_process_output so se sx id).stdout = []) ∧
      (bufGet se id = none → (fetch_process_output so se sx id).stderr = [])) ∧
    (∀ (so se : BufMap Nat) (sid : Nat),
      (openssh_get_current_output so se sid).isOk = true ∧
      (bufGet so sid = none → (get_current_output_internal so se sid).stdout = []) ∧
      (bufGet se sid = none → (get_current_output_internal so se sid).stderr = [])) ∧
    (∀ (rs re : Bool) (so se : BufMap Nat),
      native_get_partial_output none rs re so se =
        Except.error LinuxProcessError.ProcessIdNotFound) := by
  refine ⟨fun so se sx id => ⟨rfl, fun h => ?_, fun h => ?_⟩,
    fun so se sid => ⟨rfl, fun h => ?_, fun h => ?_⟩, fun _ _ _ _ => rfl⟩
  · simp [fetch_process_output, h]
  · simp [fetch_process_output, h]
  · simp [get_current_output_internal, h]
  · simp [get_current_output_internal, h]

/-- Witness for C10 at concrete inputs: with empty buffer maps and key
`(channel 3, instance 1)` (resp. synthetic id 9), both snapshots are `Ok`
with empty streams, and the native snapshot without a PID fails. -/
theorem c10_snapshot_totality_witness :
    ((russh_get_current_output [] [] [] ⟨3, 1⟩).isOk = true ∧
      (bufGet ([] : BufMap InternalId) ⟨3, 1⟩ = none →
        (fetch_process_output [] [] [] ⟨3, 1⟩).stdout = []) ∧
      (bufGet ([] : BufMap InternalId) ⟨3, 1⟩ = none →
        (fetch_process_output [] [] [] ⟨3, 1⟩).stderr = [])) ∧
    ((openssh_get_current_output [] [] 9).isOk = true ∧
      (bufGet ([] : BufMap Nat) 9 = none →
        (get_current_output_internal [] [] 9).stdout = []) ∧
      (bufGet ([] : BufMap Nat) 9 = none →
        (get_current_output_internal [] [] 9).stderr = [])) ∧
    native_get_partial_output none true false [] [] =
      Except.error LinuxProcessError.ProcessIdNotFound := by
  exact ⟨c10_snapshot_totality.1 [] [] [] ⟨3, 1⟩,
    c10_snapshot_totality.2.1 [] [] 9,
    c10_snapshot_totality.2.2 true false [] []⟩

/- ### PID discovery loop (claim C2) -/

/-- Outcome of one iteration's filesystem access in the PID discovery loop:
either `open_file` or `read_to_string` failed, or the file's content was
read. -/
inductive FsReadOutcome where
  | failure
  | success (content : List Char)

/-- Embedding of the PID discovery loop of `begin_execute_internal`
(src/src/russh/executor.rs:177-190) and of `OpensshLinux::begin_execute`
(src/src/impl_openssh/executor.rs:112-126): iteration `k` opens and reads
the pid file with outcome `responses k`; a successful read is trimmed and
parsed as `u32`; on parse success the loop breaks with the PID; on any
failure (open, read or parse) the loop silently retries.  The Rust loop is
unbounded; the embedding runs `fuel` iterations and reports `none` when no
iteration broke out. -/
def pid_discovery_loop (responses : Nat → FsReadOutcome) : Nat → Nat → Option Nat
  | _, 0 => none
  | k, fuel + 1 =>
      match responses k with
      | FsReadOutcome.success content =>
          match parseU32 (rtrim content) with
          | some pid => some pid
          | none => pid_discovery_loop responses (k + 1) fuel
      | FsReadOutcome.failure => pid_discovery_loop responses (k + 1) fuel

/-- The claim's progress property for an execution whose filesystem
responses are given: some number of iterations suffices for the loop to
terminate (the loop body has no error exit, so termination can only mean a
PID was observed). -/
def PidLoopResolves (responses : Nat → FsReadOutcome) : Prop :=
  ∃ fuel, (pid_discovery_loop responses 0 fuel).isSome = true

lemma pid_discovery_loop_all_failures (responses : Nat → FsReadOutcome)
    (hall : ∀ j, responses j = FsReadOutcome.failure) :
    ∀ fuel k, pid_discovery_loop responses k fuel = none := by
  intro fuel
  induction fuel with
  | zero => intro k; rfl
  | succ n ih =>
      intro k
      simp only [pid_discovery_loop, hall k]
      exact ih (k + 1)

/-- Counterexample to claim C2 as stated: when the remote filesystem is
unavailable (every open/read attempt fails), the PID discovery loop makes
no observable progress — it neither observes a PID nor returns an I/O
failure, for any number of iterations — so `begin_execute` loops forever
instead of failing with a descriptive error. -/
theorem c2_counterexample : ¬ PidLoopResolves (fun _ => FsReadOutcome.failure) := by
  rintro ⟨fuel, hres⟩
  rw [pid_discovery_loop_all_failures (fun _ => FsReadOutcome.failure) (fun _ => rfl) fuel 0]
    at hres
  cases hres

/-- Claim C2 (amended): the PID discovery loop can terminate only by
observing a successfully read and parsed PID — every open, read or parse
failure is silently swallowed and retried — and under a permanently
unavailable filesystem it runs forever, returning nothing for any number of
iterations. -/
theorem c2_pid_loop_progress :
    (∀ (responses : Nat → FsReadOutcome) (k fuel pid : Nat),
      pid_discovery_loop responses k fuel = some pid →
      ∃ j, k ≤ j ∧ j < k + fuel ∧ ∃ content,
        responses j = FsReadOutcome.success content ∧
        parseU32 (rtrim content) = some pid) ∧
    (∀ (responses : Nat → FsReadOutcome),
      (∀ j, responses j = FsReadOutcome.failure) →
      ∀ fuel, pid_discovery_loop responses 0 fuel = none) := by
  constructor
  · intro responses k fuel
    induction fuel generalizing k with
    | zero => intro pid h; cases h
    | succ n ih =>
        intro pid h
        cases hresp : responses k with
        | failure =>
            simp only [pid_discovery_loop, hresp] at h
            obtain ⟨j, hj1, hj2, hcontent⟩ := ih (k + 1) pid h
            exact ⟨j, by omega, by omega, hcontent⟩
        | success content =>
            cases hparse : parseU32 (rtrim content) with
            | none =>
                simp only [pid_discovery_loop, hresp, hparse] at h
                obtain ⟨j, hj1, hj2, hcontent⟩ := ih (k + 1) pid h
                exact ⟨j, by omega, by omega, hcontent⟩
            | some pid2 =>
                simp only [pid_discovery_loop, hresp, hparse] at h
                cases h
                exact ⟨k, le_refl k, by omega, content, hresp, hparse⟩
  · intro responses hall fuel
    exact pid_discovery_loop_all_failures responses hall fuel 0

/-- Witness for C2 at a concrete input: a filesystem that yields the
content `"82\n"` on its first read makes one loop iteration return PID 82,
and the theorem locates that successful read. -/
theorem c2_pid_loop_progress_witness :
    ∃ j, 0 ≤ j ∧ j < 0 + 1 ∧ ∃ content,
      (fun _ => FsReadOutcome.success (str "82\n")) j = FsReadOutcome.success content ∧
      parseU32 (rtrim content) = some 82 := by
  exact c2_pid_loop_progress.1 (fun _ => FsReadOutcome.success (str "82\n")) 0 1 82 (by decide)

/- ### Native executor: execute vs begin_execute + await_exit_with_output (claim C4) -/

/-- What the spawned program does, as far as the OS reports it: the bytes
it writes to its stdout and stderr pipes, and its exit status
(`None` when killed by a signal). -/
structure OsProcessBehavior where
  stdoutBytes : List Nat
  stderrBytes : List Nat
  status : Option Int
deriving DecidableEq, Repr

/-- State of a spawned `tokio::process::Child` as the native executor sees
it: each output handle is `some bytes` while the piped handle is still
attached to the child, and `none` when the stream was not piped or the
handle was taken by a capture task. -/
structure NativeChild where
  stdoutHandle : Option (List Nat)
  stderrHandle : Option (List Nat)
  status : Option Int
deriving DecidableEq, Repr

/-- Shape of `LinuxProcessOutput` in the native executor revision
(optional buffers plus a status code). -/
structure NativeProcessOutput where
  stdout : Option (List Nat)
  stderr : Option (List Nat)
  status_code : Option Int
deriving DecidableEq, Repr

/-- Embedding of `create_command_from_config`
(src/src/native/executor.rs:219-255) combined with the spawn: the child's
stdout/stderr handles are piped (and so carry the program's bytes) exactly
when the corresponding redirect flag is set, and null (nothing to collect)
otherwise. -/
def create_command_child (redirect_stdout redirect_stderr : Bool)
    (beh : OsProcessBehavior) : NativeChild :=
  { stdoutHandle := if redirect_stdout then some beh.stdoutBytes else none
    stderrHandle := if redirect_stderr then some beh.stderrBytes else none
    status := beh.status }

/-- Embedding of `get_process_output` (src/src/native/executor.rs:154-171):
wraps the OS-collected bytes according to the redirect flags. -/
def get_process_output (collectedStdout collectedStderr : List Nat) (status : Option Int)
    (redirect_stdout redirect_stderr : Bool) : NativeProcessOutput :=
  { stdout := if redirect_stdout then some collectedStdout else none
    stderr := if redirect_stderr then some collectedStderr else none
    status_code := status }

/-- Bytes `wait_with_output` collects from one child handle: the handle's
contents when it is still attached, and nothing otherwise. -/
def collect_handle (h : Option (List Nat)) : List Nat :=
  match h with
  | some bytes => bytes
  | none => []

/-- Embedding of `NativeLinux::execute`
(src/src/native/executor.rs:140-151): builds the command, runs it with the
one-shot `Command::output()` (which collects whatever the configured
handles deliver), and wraps the result with `get_process_output`. -/
def native_execute (redirect_stdout redirect_stderr : Bool) (beh : OsProcessBehavior) :
    NativeProcessOutput :=
  let child := create_command_child redirect_stdout redirect_stderr beh
  get_process_output (collect_handle child.stdoutHandle) (collect_handle child.stderrHandle)
    child.status redirect_stdout redirect_stderr

/-- The process handle returned by `begin_execute`
(src/src/native/executor.rs:131-137): the (possibly plundered) child plus
the redirect flags and PID. -/
structure NativeLinuxProcess where
  child : NativeChild
  redirect_stdout : Bool
  redirect_stderr : Bool
  pid : Option Nat
deriving DecidableEq, Repr

/-- Embedding of `NativeLinux::begin_execute`
(src/src/native/executor.rs:102-138): spawns the child and — when a PID is
known and extra reads are not disabled — registers capture buffers and
spawns `queue_capturer` for each redirected stream.  `queue_capturer`
(src/src/native/executor.rs:173-217) begins with `child.stdout.take()` /
`child.stderr.take()`, so the corresponding handle is detached from the
child. -/
def native_begin_execute (redirect_stdout redirect_stderr : Bool)
    (disable_extra_reads : Bool) (beh : OsProcessBehavior) (pid : Option Nat) :
    NativeLinuxProcess :=
  let child := create_command_child redirect_stdout redirect_stderr beh
  let captureStdout := pid.isSome && !disable_extra_reads && redirect_stdout
  let captureStderr := pid.isSome && !disable_extra_reads && redirect_stderr
  { child :=
      { stdoutHandle := if captureStdout then none else child.stdoutHandle
        stderrHandle := if captureStderr then none else child.stderrHandle
        status := child.status }
    redirect_stdout := redirect_stdout
    redirect_stderr := redirect_stderr
    pid := pid }

/-- Embedding of `NativeLinuxProcess::await_exit_with_output`
(src/src/native/executor.rs:78-85): awaits `Child::wait_with_output` —
which reads only the handles still attached to the child — and wraps the
result with `get_process_output`.  The capture-fabric buffers are never
consulted. -/
def native_await_exit_with_output (proc : NativeLinuxProcess) : NativeProcessOutput :=
  get_process_output (collect_handle proc.child.stdoutHandle)
    (collect_handle proc.child.stderrHandle) proc.child.status
    proc.redirect_stdout proc.redirect_stderr

/-- Counterexample to claim C4 as stated: with `redirect_stdout = true`
(capture enabled, PID 100 known) and a program that writes the single byte
`120` to stdout and exits 0, `execute` reports that byte but
`begin_execute` followed by `await_exit_with_output` reports an empty
stdout — the capture task stole the pipe handle and the captured bytes are
never folded back in.  The two buffers differ in length, so no reordering
of buffered lines reconciles them. -/
theorem c4_counterexample :
    native_execute true false ⟨[120], [], some 0⟩ =
      ⟨some [120], none, some 0⟩ ∧
    native_await_exit_with_output
        (native_begin_execute true false false ⟨[120], [], some 0⟩ (some 100)) =
      ⟨some [], none, some 0⟩ ∧
    native_await_exit_with_output
        (native_begin_execute true false false ⟨[120], [], some 0⟩ (some 100)) ≠
      native_execute true false ⟨[120], [], some 0⟩ := by
  exact ⟨rfl, rfl, by decide⟩

/-- Claim C4 (amended): for the native backend the two paths always agree
on `status_code`, and they return identical outputs whenever no capture
task detaches a handle — the stream not redirected, extra reads disabled,
or no PID known.  But when capture is active for a redirected stream,
`await_exit_with_output` returns an empty buffer for it (the bytes went to
the capture fabric, which this method never reads), while `execute`
returns the program's bytes. -/
theorem c4_execute_refinement :
    (∀ (rs re : Bool) (d : Bool) (beh : OsProcessBehavior) (pid : Option Nat),
      (native_await_exit_with_output (native_begin_execute rs re d beh pid)).status_code =
        (native_execute rs re beh).status_code) ∧
    (∀ (rs re : Bool) (beh : OsProcessBehavior) (pid : Option Nat),
      native_await_exit_with_output (native_begin_execute rs re true beh pid) =
        native_execute rs re beh) ∧
    (∀ (rs re : Bool) (d : Bool) (beh : OsProcessBehavior),
      native_await_exit_with_output (native_begin_execute rs re d beh none) =
        native_execute rs re beh) ∧
    (∀ (re : Bool) (d : Bool) (beh : OsProcessBehavior) (p : Nat),
      d = false →
      (native_await_exit_with_output (native_begin_execute true re d beh (some p))).stdout =
        some []) := by
  refine ⟨fun rs re d beh pid => rfl, fun rs re beh pid => ?_, fun rs re d beh => ?_,
    fun re d beh p hd => ?_⟩
  · cases rs <;> cases re <;>
      simp [native_await_exit_with_output, native_begin_execute, native_execute,
        create_command_child, get_process_output, collect_handle]
  · cases rs <;> cases re <;> cases d <;>
      simp [native_await_exit_with_output, native_begin_execute, native_execute,
        create_command_child, get_process_output, collect_handle]
  · subst hd
    simp [native_await_exit_with_output, native_begin_execute, native_execute,
      create_command_child, get_process_output, collect_handle]

/-- Witness for C4 at a concrete input: with extra reads disabled the two
paths agree exactly, and with capture enabled the stdout buffer comes back
empty. -/
theorem c4_execute_refinement_witness :
    (native_await_exit_with_output
        (native_begin_execute true true true ⟨[1, 2], [3], some 7⟩ (some 4)) =
      native_execute true true ⟨[1, 2], [3], some 7⟩) ∧
    (native_await_exit_with_output
        (native_begin_execute true false false ⟨[1, 2], [3], some 7⟩ (some 4))).stdout =
      some [] := by
  exact ⟨c4_execute_refinement.2.1 true true ⟨[1, 2], [3], some 7⟩ (some 4),
    c4_execute_refinement.2.2.2 false false ⟨[1, 2], [3], some 7⟩ 4 rfl⟩

/- ### Recursive directory creation (claim C3) -/

/-- A remote path, as the sequence of its `Component::Normal` components
(`PathBuf::components()` on an absolute path such as `/tmp/A/B` yields the
root marker — skipped by the loop — followed by `tmp`, `A`, `B`). -/
abbrev FsPath := List (List Char)

/-- The SFTP server's directory tree, abstracted to the set of existing
directories (the root `/` exists implicitly and is not listed). -/
structure SftpState where
  dirs : List FsPath
deriving DecidableEq

/-- Embedding of `SftpSession::try_exists` against the abstract server:
reports whether the directory exists. -/
def sftp_try_exists (st : SftpState) (p : FsPath) : Bool :=
  decide (p ∈ st.dirs)

/-- Embedding of `SftpSession::create_dir` against the abstract server:
POSIX `mkdir` semantics — fails when the directory already exists or when
its parent (other than the implicit root) is missing. -/
def sftp_create_dir (st : SftpState) (p : FsPath) : Option SftpState :=
  if p ∈ st.dirs then none
  else if p.dropLast = [] ∨ p.dropLast ∈ st.dirs then some ⟨p :: st.dirs⟩
  else none

/-- Embedding of the component loop of `LinuxFilesystem::create_dir_recursively`
for the library-SSH backend (src/src/impl_russh/filesystem.rs:147-182).
`cur` is the `current_path` accumulated so far and `prevExisted` the
`previous_existed` flag: while the flag is off, each extended prefix is
only probed with `try_exists` (and never created — the loop `continue`s in
both branches); once a prefix is found to exist the flag turns on and every
later prefix is unconditionally `create_dir`ed, with any error returned. -/
def create_dir_recursively_go (st : SftpState) (cur : FsPath) (prevExisted : Bool) :
    List (List Char) → Option SftpState
  | [] => some st
  | c :: rest =>
      let cur2 := cur ++ [c]
      if prevExisted then
        match sftp_create_dir st cur2 with
        | some st2 => create_dir_recursively_go st2 cur2 true rest
        | none => none
      else
        if sftp_try_exists st cur2 then create_dir_recursively_go st cur2 true rest
        else create_dir_recursively_go st cur2 false rest

/-- Embedding of `LinuxFilesystem::create_dir_recursively`
(src/src/impl_russh/filesystem.rs:147-182): runs the component loop from
the empty prefix with the flag off. -/
def create_dir_recursively (st : SftpState) (p : FsPath) : Option SftpState :=
  create_dir_recursively_go st [] false p

/-- The nonempty prefixes of a path (each component list `take (i+1)`). -/
def pathPrefixes (p : FsPath) : List FsPath :=
  (List.range p.length).map (fun i => p.take (i + 1))

/-- Counterexample to claim C3 as stated: with `/tmp`, `/tmp/A` and
`/tmp/A/B` all existing as directories, `create_dir_recursively` on
`/tmp/A/B` fails instead of succeeding — after the first existing prefix,
every remaining component is `mkdir`ed unconditionally and `mkdir` on the
existing `/tmp/A` errors.  `mkdir -p` semantics would demand success. -/
theorem c3_counterexample :
    create_dir_recursively
        ⟨[[str "tmp"], [str "tmp", str "A"], [str "tmp", str "A", str "B"]]⟩
        [str "tmp", str "A", str "B"] = none := by
  decide

/-- Helper soundness lemma for the creating phase of the loop: once the
flag is on and every remaining extended prefix is missing, the loop
succeeds and afterwards the old directories and all the new prefixes
exist. -/
lemma create_dir_recursively_go_creates (rest : List (List Char)) :
    ∀ (st : SftpState) (cur : FsPath),
      cur = [] ∨ cur ∈ st.dirs →
      (∀ q ∈ pathPrefixes rest, (cur ++ q) ∉ st.dirs) →
      ∃ st2, create_dir_recursively_go st cur true rest = some st2 ∧
        (∀ d ∈ st.dirs, d ∈ st2.dirs) ∧
        (∀ q ∈ pathPrefixes rest, (cur ++ q) ∈ st2.dirs) := by
  induction rest with
  | nil =>
      intro st cur hcur hmiss
      exact ⟨st, rfl, fun d hd => hd, by simp [pathPrefixes]⟩
  | cons c rest ih =>
      intro st cur hcur hmiss
      have hc1 : [c] ∈ pathPrefixes (c :: rest) := by
        simp [pathPrefixes]
        exact ⟨0, by simp, by simp⟩
      have hnotin : (cur ++ [c]) ∉ st.dirs := hmiss [c] hc1
      have hparent : (cur ++ [c]).dropLast = [] ∨ (cur ++ [c]).dropLast ∈ st.dirs := by
        have : (cur ++ [c]).dropLast = cur := by
          simp [List.dropLast_append_of_ne_nil]
        rw [this]
        exact hcur
      have hstep : sftp_create_dir st (cur ++ [c]) = some ⟨(cur ++ [c]) :: st.dirs⟩ := by
        unfold sftp_create_dir
        rw [if_neg hnotin, if_pos hparent]
      have hmiss2 : ∀ q ∈ pathPrefixes rest, ((cur ++ [c]) ++ q) ∉ ({ dirs := (cur ++ [c]) :: st.dirs } : SftpState).dirs := by
        intro q hq
        have hqmem : (c :: q) ∈ pathPrefixes (c :: rest) := by
          simp only [pathPrefixes, List.mem_map, List.mem_range] at hq ⊢
          obtain ⟨i, hi, hqeq⟩ := hq
          exact ⟨i + 1, by simp; omega, by simp [hqeq]⟩
        have hq1 : (cur ++ (c :: q)) ∉ st.dirs := hmiss (c :: q) hqmem
        have hqne : q ≠ [] := by
          simp only [pathPrefixes, List.mem_map, List.mem_range] at hq
          obtain ⟨i, hi, hqeq⟩ := hq
          intro habs
          rw [habs] at hqeq
          rcases List.take_eq_nil_iff.mp hqeq with h1 | h1
          · omega
          · rw [h1] at hi; simp at hi
        simp only [List.mem_cons]
        rintro (heq | hmem)
        · exact hqne (List.append_right_eq_self.mp heq)
        · exact hq1 (by simpa using hmem)
      obtain ⟨st2, hrun, hmono, hnew⟩ := ih ⟨(cur ++ [c]) :: st.dirs⟩ (cur ++ [c])
        (Or.inr (by simp)) hmiss2
      refine ⟨st2, ?_, ?_, ?_⟩
      · simp only [create_dir_recursively_go, hstep]
        exact hrun
      · intro d hd
        exact hmono d (by simp [hd])
      · intro q hq
        simp only [pathPrefixes, List.mem_map, List.mem_range] at hq
        obtain ⟨i, hi, hqeq⟩ := hq
        cases i with
        | zero =>
            rw [← hqeq]
            simp only [List.take]
            exact hmono (cur ++ [c]) (by simp)
        | succ j =>
            have : q = c :: rest.take (j + 1) := by
              rw [← hqeq]
              simp [List.take]
            rw [this]
            have := hnew (rest.take (j + 1)) (by
              simp only [pathPrefixes, List.mem_map, List.mem_range]
              exact ⟨j, by simp at hi; omega, rfl⟩)
            simpa using this

/-- Claim C3 (amended): `create_dir_recursively(p)` only implements
`mkdir -p` on the happy path — when the first component of `p` exists and
no longer prefix does, the call succeeds and afterwards every prefix of
`p` exists as a directory (in particular `/tmp/A/B` with only `/tmp`
present).  When no prefix of `p` exists at all, the call succeeds without
creating anything; and (per the counterexample) it fails when a prefix
beyond the first existing one — e.g. `p` itself — already exists. -/
theorem c3_create_dir_recursively :
    (∀ (st : SftpState) (c : List Char) (rest : List (List Char)),
      [c] ∈ st.dirs →
      (∀ q ∈ pathPrefixes (c :: rest), q.length ≥ 2 → q ∉ st.dirs) →
      ∃ st2, create_dir_recursively st (c :: rest) = some st2 ∧
        ∀ q ∈ pathPrefixes (c :: rest), q ∈ st2.dirs) ∧
    (∀ (st : SftpState) (p : FsPath),
      (∀ q ∈ pathPrefixes p, q ∉ st.dirs) →
      create_dir_recursively st p = some st) := by
  constructor
  · intro st c rest hfirst hdeep
    have hmiss : ∀ q ∈ pathPrefixes rest, ([c] ++ q) ∉ st.dirs := by
      intro q hq
      simp only [pathPrefixes, List.mem_map, List.mem_range] at hq
      obtain ⟨i, hi, hqeq⟩ := hq
      apply hdeep ([c] ++ q)
      · simp only [pathPrefixes, List.mem_map, List.mem_range]
        refine ⟨i + 1, by simp; omega, ?_⟩
        simp [← hqeq, List.take]
      · have := congrArg List.length hqeq
        simp at this
        simp
        omega
    obtain ⟨st2, hrun, hmono, hnew⟩ :=
      create_dir_recursively_go_creates rest st [c] (Or.inr hfirst) hmiss
    refine ⟨st2, ?_, ?_⟩
    · unfold create_dir_recursively
      simp only [create_dir_recursively_go, List.nil_append]
      rw [if_neg (by simp), if_pos (by simpa [sftp_try_exists] using hfirst)]
      exact hrun
    · intro q hq
      simp only [pathPrefixes, List.mem_map, List.mem_range] at hq
      obtain ⟨i, hi, hqeq⟩ := hq
      cases i with
      | zero =>
          rw [← hqeq]
          simpa [List.take] using hmono [c] hfirst
      | succ j =>
          have hqeq2 : q = c :: rest.take (j + 1) := by
            rw [← hqeq]; simp [List.take]
          rw [hqeq2]
          have := hnew (rest.take (j + 1)) (by
            simp only [pathPrefixes, List.mem_map, List.mem_range]
            exact ⟨j, by simp at hi; omega, rfl⟩)
          simpa using this
  · intro st p hmiss
    unfold create_dir_recursively
    have hgen : ∀ (rest : List (List Char)) (cur : FsPath),
        (∀ q ∈ pathPrefixes rest, (cur ++ q) ∉ st.dirs) →
        create_dir_recursively_go st cur false rest = some st := by
      intro rest
      induction rest with
      | nil => intro cur _; rfl
      | cons c rest2 ih =>
          intro cur hm
          have hc1 : (cur ++ [c]) ∉ st.dirs := by
            apply hm [c]
            simp [pathPrefixes]
            exact ⟨0, by simp, by simp⟩
          simp only [create_dir_recursively_go, Bool.false_eq_true, if_false]
          rw [if_neg (by simpa [sftp_try_exists] using hc1)]
          apply ih (cur ++ [c])
          intro q hq
          simp only [pathPrefixes, List.mem_map, List.mem_range] at hq
          obtain ⟨i, hi, hqeq⟩ := hq
          have : (c :: q) ∈ pathPrefixes (c :: rest2) := by
            simp only [pathPrefixes, List.mem_map, List.mem_range]
            exact ⟨i + 1, by simp; omega, by simp [← hqeq, List.take]⟩
          simpa using hm (c :: q) this
    have := hgen p []
    simp only [List.nil_append] at this
    exact this (by simpa using hmiss)

/-- Witness for C3 at the spec's own scenario: starting from a server where
only `/tmp` exists, `create_dir_recursively("/tmp/A/B")` succeeds and both
`/tmp/A` and `/tmp/A/B` exist afterwards; and on a server with nothing, a
call on `/A/B` silently succeeds. -/
theorem c3_create_dir_recursively_witness :
    (∃ st2, create_dir_recursively ⟨[[str "tmp"]]⟩ [str "tmp", str "A", str "B"] = some st2 ∧
      ∀ q ∈ pathPrefixes [str "tmp", str "A", str "B"], q ∈ st2.dirs) ∧
    create_dir_recursively ⟨[]⟩ [str "A", str "B"] = some ⟨[]⟩ := by
  constructor
  · exact c3_create_dir_recursively.1 ⟨[[str "tmp"]]⟩ (str "tmp") [str "A", str "B"]
      (by decide) (by decide)
  · exact c3_create_dir_recursively.2 ⟨[]⟩ [str "A", str "B"] (by decide)

/- ### Shell desugarer (claim C1) -/

/-- Embedding of `LinuxProcessConfiguration` (src/src/executor.rs:8-20).
The `envs` HashMap is embedded as an association list in its (arbitrary
but fixed) iteration order. -/
structure LinuxProcessConfiguration where
  program : List Char
  args : List (List Char)
  envs : List (List Char × List Char)
  working_dir : Option (List Char)
  redirect_stdout : Bool
  redirect_stdin : Bool
  redirect_stderr : Bool
  user_id : Option Nat
  group_id : Option Nat
  process_group_id : Option Nat
deriving DecidableEq

/-- Whitelist of the `shell_escape` crate (`unix::escape`, the dependency
`derive_shell_command` calls; the crate is not vendored in the repository):
ASCII letters, digits, and `- _ = / , . +`. -/
def shellSafeChar (c : Char) : Bool :=
  ('a' ≤ c && c ≤ 'z') || ('A' ≤ c && c ≤ 'Z') || ('0' ≤ c && c ≤ '9') ||
    c == '-' || c == '_' || c == '=' || c == '/' || c == ',' || c == '.' || c == '+'

/-- Character-rewriting step of the crate's quoting loop: the match arm
`'\'' | '!'` emits `'\` + the character + `'` (so `'` becomes the four
characters `'\''` and `!` becomes `'\!'`, each breaking out of the
surrounding quotes); every other character is kept. -/
def escapeQuoteChar (c : Char) : List Char :=
  if c = '\'' ∨ c = '!' then ['\'', '\\', c, '\''] else [c]

/-- Embedding of `shell_escape::unix::escape` (the crate dependency used by
`derive_shell_command` / `desugar_to_shell_command`): a nonempty string of
whitelisted characters is returned unchanged; any other string is wrapped
in single quotes with each embedded `'` rewritten to `'\''` and each `!`
to `'\!'`. -/
def shell_escape (s : List Char) : List Char :=
  if s ≠ [] ∧ s.all shellSafeChar then s
  else '\'' :: (s.map escapeQuoteChar).flatten ++ ['\'']

/-- Embedding of the `exec_section` construction of
`desugar_to_shell_command` (src/src/executor.rs:137-159, identical in
src/src/derive_ext.rs and src/src/ssh_util.rs): environment pairs `K=V `
are pushed first, then `exec ` and the program; when args are present a
space and each escaped argument followed by a space are pushed, and the
result is `trim_end`ed. -/
def exec_section (pc : LinuxProcessConfiguration) : List Char :=
  let envPart := (pc.envs.map (fun kv => kv.1 ++ '=' :: kv.2 ++ [' '])).flatten
  let base := envPart ++ str "exec " ++ pc.program
  if pc.args = [] then base
  else rtrim (base ++ ' ' :: (pc.args.map (fun a => shell_escape a ++ [' '])).flatten)

/-- Embedding of `LinuxProcessConfiguration::desugar_to_shell_command`
(src/src/executor.rs:124-167; the same body appears as
`DeriveExt::derive_shell_command` in src/src/derive_ext.rs:10-55 and as
`ssh_util::derive_shell_command`).  The freshly generated UUID is passed in
as a parameter: the function returns the command string and the pid-file
path `/tmp/pid-UUID`; the sections (optional `cd`, the pid `echo`, the exec
section) are joined with ` && ` and wrapped in parentheses. -/
def desugar_to_shell_command (pc : LinuxProcessConfiguration) (uuid : List Char) :
    List Char × List Char :=
  let pid_file := str "/tmp/pid-" ++ uuid
  let sections : List (List Char) :=
    (match pc.working_dir with
     | some wd => [str "cd " ++ wd]
     | none => []) ++
    [str "echo $$ > " ++ pid_file, exec_section pc]
  ('(' :: rustJoin (str " && ") sections ++ [')'], pid_file)

/-- Modelled from the spec: the per-character rewriting the claim asserts —
only a single quote is special and becomes `'\''`; every other character
(including `!`) is kept. -/
def specQuoteChar (c : Char) : List Char :=
  if c = '\'' then ['\'', '\\', '\'', '\''] else [c]

/-- Modelled from the spec: the escaping the claim asserts — every argument
is rendered as a POSIX single-quoted token with each embedded single quote
rewritten as `'\''` ("for each byte, emit `'` + input with any `'` replaced
by `'\''` + `'`"). -/
def spec_escape (s : List Char) : List Char :=
  '\'' :: (s.map specQuoteChar).flatten ++ ['\'']

/-- Modelled from the spec: the exact command shape claim C1 asserts —
`( [cd WD && ] echo $$ > /tmp/pid-UUID && [K=V ...] exec PROG [ARG ...] )`
with every argument escaped by `spec_escape`. -/
def spec_desugar_command (pc : LinuxProcessConfiguration) (uuid : List Char) : List Char :=
  '(' :: rustJoin (str " && ")
    ((match pc.working_dir with
      | some wd => [str "cd " ++ wd]
      | none => []) ++
     [str "echo $$ > /tmp/pid-" ++ uuid,
      (pc.envs.map (fun kv => kv.1 ++ '=' :: kv.2 ++ [' '])).flatten ++ str "exec " ++
        pc.program ++
        (if pc.args = [] then [] else ' ' :: rustJoin [' '] (pc.args.map spec_escape))]) ++
    [')']

/-- Counterexample to claim C1 as stated: for the configuration
`kill -KILL 42` (as built by `send_signal`), the desugarer emits
`(echo $$ > /tmp/pid-u && exec kill -KILL 42)` — the arguments `-KILL` and
`42` consist of whitelisted characters and are not single-quoted — while
the claimed shape would be `(echo $$ > /tmp/pid-u && exec kill '-KILL' '42')`. -/
theorem c1_counterexample :
    (desugar_to_shell_command
        ⟨str "kill", [str "-KILL", str "42"], [], none,
          false, false, false, none, none, none⟩ (str "u")).1 ≠
      spec_desugar_command
        ⟨str "kill", [str "-KILL", str "42"], [], none,
          false, false, false, none, none, none⟩ (str "u") := by
  decide

lemma shellSafeChar_not_whitespace (c : Char) (h : shellSafeChar c = true) :
    c.isWhitespace = false := by
  by_contra hws
  rw [Bool.not_eq_false] at hws
  simp only [Char.isWhitespace, Bool.or_eq_true, decide_eq_true_eq] at hws
  rcases hws with ((h1 | h1) | h1) | h1 <;> subst h1 <;> exact absurd h (by decide)

/-- Every escaped argument is nonempty and ends in a non-whitespace
character (its last character is either whitelisted or the closing quote). -/
lemma shell_escape_ends_nonws (a : List Char) :
    ∃ ys c, shell_escape a = ys ++ [c] ∧ c.isWhitespace = false := by
  unfold shell_escape
  by_cases hsafe : a ≠ [] ∧ a.all shellSafeChar
  · rw [if_pos hsafe]
    obtain ⟨hne, hall⟩ := hsafe
    refine ⟨a.dropLast, a.getLast hne, (List.dropLast_append_getLast hne).symm, ?_⟩
    exact shellSafeChar_not_whitespace _ (List.all_eq_true.mp hall _ (List.getLast_mem hne))
  · rw [if_neg hsafe]
    exact ⟨'\'' :: (a.map escapeQuoteChar).flatten, '\'', rfl, by decide⟩

lemma rtrim_append_nonws (l : List Char) (c : Char) (h : c.isWhitespace = false) :
    rtrim (l ++ [c]) = l ++ [c] := by
  simp [rtrim, List.reverse_append, List.dropWhile_cons, h]

lemma rtrim_append_space (l : List Char) : rtrim (l ++ [' ']) = rtrim l := by
  simp [rtrim, List.reverse_append, List.dropWhile_cons]

/-- Trailing-space bookkeeping of the arg loop: pushing `escaped ++ " "`
for every argument and then `trim_end`ing is the same as interspersing
single spaces, provided every piece ends in a non-whitespace character. -/
lemma rtrim_join_spaced (es : List (List Char)) :
    es ≠ [] →
    (∀ e ∈ es, ∃ ys c, e = ys ++ [c] ∧ c.isWhitespace = false) →
    ∀ pre : List Char,
      rtrim (pre ++ (es.map (fun e => e ++ [' '])).flatten) = pre ++ rustJoin [' '] es := by
  induction es with
  | nil => intro h; exact absurd rfl h
  | cons e rest ih =>
      intro _ hends pre
      cases rest with
      | nil =>
          obtain ⟨ys, c, heq, hc⟩ := hends e (by simp)
          simp only [List.map_cons, List.map_nil, List.flatten_cons, List.flatten_nil,
            List.append_nil, rustJoin]
          rw [← List.append_assoc, rtrim_append_space, heq, ← List.append_assoc]
          exact rtrim_append_nonws _ _ hc
      | cons e2 rest2 =>
          have hstep := ih (by simp) (fun x hx => hends x (by simp [hx]))
            (pre ++ e ++ [' '])
          simp only [List.map_cons, List.flatten_cons, rustJoin] at hstep ⊢
          have hassoc1 : pre ++ ((e ++ [' ']) ++ ((e2 ++ [' ']) ++
              (rest2.map (fun e => e ++ [' '])).flatten)) =
              ((pre ++ e) ++ [' ']) ++ ((e2 ++ [' ']) ++
                (rest2.map (fun e => e ++ [' '])).flatten) := by
            simp [List.append_assoc]
          rw [hassoc1, hstep]
          simp [List.append_assoc]

/-- Claim C1 (amended): the desugared command has exactly the claimed
shape — outer parentheses, sections joined by ` && `, `cd` clause present
iff `working_dir` is set, pid file `/tmp/pid-UUID` — and each argument
appears as `shell_escape` of the argument: nonempty all-whitelisted
arguments pass through unquoted; empty or non-whitelisted arguments are
single quoted, agreeing with the spec's always-single-quote algorithm
exactly when the argument contains no `!` — an argument containing `!`
(which the crate rewrites to `'\!'`, like the embedded quote) is always
rendered differently from the spec's form. -/
theorem c1_desugar_shape :
    ∀ (pc : LinuxProcessConfiguration) (uuid : List Char),
      desugar_to_shell_command pc uuid =
        ('(' :: rustJoin (str " && ")
          ((match pc.working_dir with
            | some wd => [str "cd " ++ wd]
            | none => []) ++
           [str "echo $$ > /tmp/pid-" ++ uuid,
            (pc.envs.map (fun kv => kv.1 ++ '=' :: kv.2 ++ [' '])).flatten ++ str "exec " ++
              pc.program ++
              (if pc.args = [] then []
               else ' ' :: rustJoin [' '] (pc.args.map shell_escape))]) ++ [')'],
         str "/tmp/pid-" ++ uuid) ∧
      (∀ a, (a ≠ [] ∧ a.all shellSafeChar = true) → shell_escape a = a) ∧
      (∀ a, (a = [] ∨ ¬ a.all shellSafeChar = true) → '!' ∉ a →
        shell_escape a = spec_escape a) ∧
      (∀ a, '!' ∈ a → shell_escape a ≠ spec_escape a) := by
  intro pc uuid
  refine ⟨?_, ?_, ?_, ?_⟩
  · have hexec : exec_section pc =
        (pc.envs.map (fun kv => kv.1 ++ '=' :: kv.2 ++ [' '])).flatten ++ str "exec " ++
          pc.program ++
          (if pc.args = [] then []
           else ' ' :: rustJoin [' '] (pc.args.map shell_escape)) := by
      simp only [exec_section]
      by_cases hargs : pc.args = []
      · simp [hargs]
      · rw [if_neg hargs, if_neg hargs]
        have hes : pc.args.map shell_escape ≠ [] := by
          simpa using hargs
        have hends : ∀ e ∈ pc.args.map shell_escape,
            ∃ ys c, e = ys ++ [c] ∧ c.isWhitespace = false := by
          intro e he
          obtain ⟨a, _, hae⟩ := List.mem_map.mp he
          rw [← hae]
          exact shell_escape_ends_nonws a
        have hmm : (pc.args.map (fun a => shell_escape a ++ [' '])).flatten =
            ((pc.args.map shell_escape).map (fun e => e ++ [' '])).flatten := by
          rw [List.map_map]
          rfl
        rw [hmm]
        have hmain := rtrim_join_spaced (pc.args.map shell_escape) hes hends
          ((pc.envs.map (fun kv => kv.1 ++ '=' :: kv.2 ++ [' '])).flatten ++ str "exec " ++
            pc.program ++ [' '])
        have hassoc : (pc.envs.map (fun kv => kv.1 ++ '=' :: kv.2 ++ [' '])).flatten ++
            str "exec " ++ pc.program ++
            ' ' :: ((pc.args.map shell_escape).map (fun e => e ++ [' '])).flatten =
            ((pc.envs.map (fun kv => kv.1 ++ '=' :: kv.2 ++ [' '])).flatten ++ str "exec " ++
              pc.program ++ [' ']) ++
              ((pc.args.map shell_escape).map (fun e => e ++ [' '])).flatten := by
          simp
        rw [hassoc, hmain]
        simp
    simp only [desugar_to_shell_command]
    have hpid : str "echo $$ > " ++ (str "/tmp/pid-" ++ uuid) =
        str "echo $$ > /tmp/pid-" ++ uuid := by
      rw [← List.append_assoc]
      rfl
    rw [hexec, hpid]
  · intro a ha
    unfold shell_escape
    rw [if_pos ha]
  · intro a ha hbang
    unfold shell_escape spec_escape
    rw [if_neg (by tauto)]
    have hmap : a.map escapeQuoteChar = a.map specQuoteChar := by
      apply List.map_congr_left
      intro c hc
      have hcne : c ≠ '!' := fun h => hbang (h ▸ hc)
      unfold escapeQuoteChar specQuoteChar
      by_cases hq : c = '\''
      · simp [hq]
      · rw [if_neg (by tauto), if_neg hq]
    rw [hmap]
  · intro a hbang heq
    have hnotall : ¬ (a.all shellSafeChar = true) := fun hall =>
      absurd (List.all_eq_true.mp hall '!' hbang) (by decide)
    unfold shell_escape spec_escape at heq
    rw [if_neg (by tauto)] at heq
    have heq2 : (a.map escapeQuoteChar).flatten ++ ['\''] =
        (a.map specQuoteChar).flatten ++ ['\''] := by
      have := congrArg List.tail heq
      simpa using this
    have hlen0 := congrArg List.length heq2
    simp only [List.length_append, List.length_flatten, List.map_map] at hlen0
    have hlt : (a.map (List.length ∘ specQuoteChar)).sum <
        (a.map (List.length ∘ escapeQuoteChar)).sum := by
      apply List.sum_lt_sum
      · intro c hc
        show (specQuoteChar c).length ≤ (escapeQuoteChar c).length
        by_cases h1 : c = '\''
        · subst h1; decide
        · by_cases h2 : c = '!'
          · subst h2; decide
          · unfold specQuoteChar escapeQuoteChar
            rw [if_neg h1, if_neg (by tauto)]
      · refine ⟨'!', hbang, ?_⟩
        show (specQuoteChar '!').length < (escapeQuoteChar '!').length
        decide
    omega

/-- Witness for C1 at a concrete input: for `pwd` run in `/tmp` with one
env pair and one metacharacter-bearing argument, the desugared command is
exactly the amended shape; the escape clauses fire on `x` (verbatim),
`a b` (quoted like the spec, no `!`) and `a!b` (quoted unlike the spec). -/
theorem c1_desugar_shape_witness :
    (desugar_to_shell_command
        ⟨str "pwd", [str "a b"], [(str "K", str "V")], some (str "/tmp"),
          false, false, false, none, none, none⟩ (str "u1") =
      ('(' :: rustJoin (str " && ")
        ([str "cd " ++ str "/tmp"] ++
         [str "echo $$ > /tmp/pid-" ++ str "u1",
          ([(str "K", str "V")].map (fun kv => kv.1 ++ '=' :: kv.2 ++ [' '])).flatten ++
            str "exec " ++ str "pwd" ++
            (if ([str "a b"] : List (List Char)) = []
             then []
             else ' ' :: rustJoin [' '] ([str "a b"].map shell_escape))]) ++ [')'],
       str "/tmp/pid-" ++ str "u1")) ∧
    shell_escape (str "x") = str "x" ∧
    shell_escape (str "a b") = spec_escape (str "a b") ∧
    shell_escape (str "a!b") ≠ spec_escape (str "a!b") := by
  refine ⟨?_, ?_, ?_, ?_⟩
  · exact (c1_desugar_shape
      ⟨str "pwd", [str "a b"], [(str "K", str "V")], some (str "/tmp"),
        false, false, false, none, none, none⟩ (str "u1")).1
  · exact (c1_desugar_shape
      ⟨str "pwd", [], [], none, false, false, false, none, none, none⟩ []).2.1
      (str "x") (by decide)
  · exact (c1_desugar_shape
      ⟨str "pwd", [], [], none, false, false, false, none, none, none⟩ []).2.2.1
      (str "a b") (by decide) (by decide)
  · exact (c1_desugar_shape
      ⟨str "pwd", [], [], none, false, false, false, none, none, none⟩ []).2.2.2
      (str "a!b") (by decide)
